import Mathlib

/-!
Verification of the job-portal backend (Django application `mynewapp`).

The development shallowly embeds the parts of the code base that the
behavioural claims are about:

* `services/ai_service.py` — JSON parsing of the model reply
  (`parse_best_job_json`) and the structured recommendation result
  (`recommend_best_job`);
* `views.py` — the recommendation endpoint (`AIJobRecommendationView.post`),
  application creation (`ApplicationListView.perform_create` together with the
  serializer-level validation), interview creation with the appointment upsert
  (`InterviewListCreateView.perform_create`), the admin soft delete
  (`AdminUserRetrieveUpdateDestroyView.destroy`) and the job object retrieval
  (`JobRetrieveUpdateDestroyView.get_object`);
* `models.py` — the rows of the relational store, as plain structures.

Machine-level conventions: database tables are Lean lists of rows; the list of
jobs is kept in the order `order_by('-created_at')` produces, i.e. most recent
first, so the ORM's recency ordering is the list order.  The external HTTP call
of `call_openrouter` is represented by its outcome (either the reply text or a
transport failure), since the network is outside the program.  Python
exceptions that escape a view are represented by explicit error values.
-/

namespace JobPortal

/-- JSON values as returned by Python's `json.loads`.  A number is kept in the
scientific form `m * 10 ^ e` so that both integer and fractional literals are
representable exactly.  An object keeps its key/value pairs in parse order
(duplicate keys are resolved by `objLookup`, which takes the last binding, as a
Python `dict` built from JSON does). -/
inductive JsonVal where
  | null
  | bool (b : Bool)
  | num (m : Int) (e : Int)
  | str (s : String)
  | arr (elems : List JsonVal)
  | obj (fields : List (String × JsonVal))

/-- Python truthiness of a JSON value (`bool(v)`), used by `parsed or` and by
`if best_id:` in `views.py`. -/
def JsonVal.truthy : JsonVal → Bool
  | .null => false
  | .bool b => b
  | .num m _ => m != 0
  | .str s => s != ""
  | .arr elems => !elems.isEmpty
  | .obj fields => !fields.isEmpty

/-- The whitespace characters accepted between JSON tokens. -/
def isJsonWs (c : Char) : Bool :=
  c = ' ' || c = '\t' || c = '\n' || c = '\r'

/-- Drop leading JSON whitespace. -/
def skipWs : List Char → List Char
  | [] => []
  | c :: cs => if isJsonWs c then skipWs cs else c :: cs

/-- Value of a hexadecimal digit, for `\u` escapes. -/
def hexVal (c : Char) : Option Nat :=
  if '0' ≤ c ∧ c ≤ '9' then some (c.toNat - 48)
  else if 'a' ≤ c ∧ c ≤ 'f' then some (c.toNat - 87)
  else if 'A' ≤ c ∧ c ≤ 'F' then some (c.toNat - 55)
  else none

/-- Body of a JSON string literal, after the opening quote.  Returns the
decoded string together with the rest of the input.  The fuel argument only
bounds recursion; callers pass the length of the input, which always
suffices because every step consumes at least one character. -/
def parseStringBody : Nat → List Char → List Char → Option (String × List Char)
  | 0, _, _ => none
  | _ + 1, [], _ => none
  | fuel + 1, c :: cs, acc =>
    if c = '"' then some (String.mk acc.reverse, cs)
    else if c = '\\' then
      match cs with
      | [] => none
      | e :: cs' =>
        if e = '"' ∨ e = '\\' ∨ e = '/' then parseStringBody fuel cs' (e :: acc)
        else if e = 'b' then parseStringBody fuel cs' (Char.ofNat 8 :: acc)
        else if e = 'f' then parseStringBody fuel cs' (Char.ofNat 12 :: acc)
        else if e = 'n' then parseStringBody fuel cs' ('\n' :: acc)
        else if e = 'r' then parseStringBody fuel cs' ('\r' :: acc)
        else if e = 't' then parseStringBody fuel cs' ('\t' :: acc)
        else if e = 'u' then
          match cs' with
          | a :: b :: c2 :: d :: cs'' =>
            match hexVal a, hexVal b, hexVal c2, hexVal d with
            | some ha, some hb, some hc, some hd =>
              parseStringBody fuel cs''
                (Char.ofNat (((ha * 16 + hb) * 16 + hc) * 16 + hd) :: acc)
            | _, _, _, _ => none
          | _ => none
        else none
    else if c.toNat < 32 then none
    else parseStringBody fuel cs (c :: acc)

/-- Split a list into its leading decimal digits and the rest. -/
def takeDigits : List Char → List Char × List Char
  | [] => ([], [])
  | c :: cs =>
    if c.isDigit then
      let p := takeDigits cs
      (c :: p.1, p.2)
    else ([], c :: cs)

/-- Numeric value of a digit list. -/
def digitsToNat (ds : List Char) : Nat :=
  ds.foldl (fun acc c => acc * 10 + (c.toNat - 48)) 0

/-- Assemble a JSON number from sign, integer digits, fraction digits and a
base-ten exponent. -/
def mkNum (neg : Bool) (intDigits fracDigits : List Char) (exp10 : Int) : JsonVal :=
  let m : Int := Int.ofNat (digitsToNat (intDigits ++ fracDigits))
  JsonVal.num (if neg then -m else m) (exp10 - fracDigits.length)

/-- Optional exponent part of a JSON number. -/
def parseExpPart (neg : Bool) (intDigits fracDigits : List Char) :
    List Char → Option (JsonVal × List Char)
  | c :: rest =>
    if c = 'e' ∨ c = 'E' then
      let p : Int × List Char :=
        match rest with
        | '+' :: r2 => (1, r2)
        | '-' :: r2 => (-1, r2)
        | _ => (1, rest)
      let q := takeDigits p.2
      if q.1.isEmpty then none
      else some (mkNum neg intDigits fracDigits (p.1 * Int.ofNat (digitsToNat q.1)), q.2)
    else some (mkNum neg intDigits fracDigits 0, c :: rest)
  | [] => some (mkNum neg intDigits fracDigits 0, [])

/-- A JSON number literal (`-? int frac? exp?`, leading zeros rejected as in
Python's json module). -/
def parseNumber (cs : List Char) : Option (JsonVal × List Char) :=
  let p : Bool × List Char :=
    match cs with
    | '-' :: r => (true, r)
    | _ => (false, cs)
  let q := takeDigits p.2
  if q.1.isEmpty then none
  else if q.1.length > 1 && q.1.head? == some '0' then none
  else
    match q.2 with
    | '.' :: r =>
      let f := takeDigits r
      if f.1.isEmpty then none
      else parseExpPart p.1 q.1 f.1 f.2
    | _ => parseExpPart p.1 q.1 [] q.2

/-- Members of a JSON object, after the opening brace (nonempty case).  The
value sub-parser is passed in, so that the recursion stays structural. -/
def parseObjMembers (pv : List Char → Option (JsonVal × List Char)) :
    Nat → List Char → List (String × JsonVal) → Option (JsonVal × List Char)
  | 0, _, _ => none
  | fuel + 1, cs, acc =>
    match skipWs cs with
    | '"' :: r =>
      match parseStringBody (r.length + 1) r [] with
      | none => none
      | some (k, r1) =>
        match skipWs r1 with
        | ':' :: r2 =>
          match pv r2 with
          | none => none
          | some (v, r3) =>
            match skipWs r3 with
            | ',' :: r4 => parseObjMembers pv fuel r4 ((k, v) :: acc)
            | '}' :: r4 => some (JsonVal.obj ((k, v) :: acc).reverse, r4)
            | _ => none
        | _ => none
    | _ => none

/-- Elements of a JSON array, after the opening bracket (nonempty case). -/
def parseArrElems (pv : List Char → Option (JsonVal × List Char)) :
    Nat → List Char → List JsonVal → Option (JsonVal × List Char)
  | 0, _, _ => none
  | fuel + 1, cs, acc =>
    match pv cs with
    | none => none
    | some (v, r) =>
      match skipWs r with
      | ',' :: r2 => parseArrElems pv fuel r2 (v :: acc)
      | ']' :: r2 => some (JsonVal.arr (v :: acc).reverse, r2)
      | _ => none

/-- One JSON value, returning the remaining input.  Fuel bounds the nesting
depth; `json_loads` passes the input length, which suffices because every
nesting level consumes at least one character. -/
def parseValue : Nat → List Char → Option (JsonVal × List Char)
  | 0, _ => none
  | fuel + 1, cs =>
    match skipWs cs with
    | 't' :: 'r' :: 'u' :: 'e' :: r => some (JsonVal.bool true, r)
    | 'f' :: 'a' :: 'l' :: 's' :: 'e' :: r => some (JsonVal.bool false, r)
    | 'n' :: 'u' :: 'l' :: 'l' :: r => some (JsonVal.null, r)
    | '"' :: r => (parseStringBody (r.length + 1) r []).map (fun p => (JsonVal.str p.1, p.2))
    | '{' :: r =>
      match skipWs r with
      | '}' :: r2 => some (JsonVal.obj [], r2)
      | _ => parseObjMembers (parseValue fuel) (r.length + 1) r []
    | '[' :: r =>
      match skipWs r with
      | ']' :: r2 => some (JsonVal.arr [], r2)
      | _ => parseArrElems (parseValue fuel) (r.length + 1) r []
    | c :: r => if c = '-' || c.isDigit then parseNumber (c :: r) else none
    | [] => none

/-- Python's `json.loads`: parse one value, allowing only trailing whitespace.
`none` models the `json.JSONDecodeError` the source catches. (The nonstandard
literals `NaN`/`Infinity` that CPython additionally accepts are not modelled;
no claim involves them.) -/
def json_loads (raw : String) : Option JsonVal :=
  let cs := raw.toList
  match parseValue (cs.length + 1) cs with
  | some (v, rest) => if (skipWs rest).isEmpty then some v else none
  | none => none

/-- Index of the first occurrence of a character, `str.find` in Python
(`none` models `-1`). -/
def findIdxOf (c : Char) : List Char → Option Nat
  | [] => none
  | x :: xs => if x = c then some 0 else (findIdxOf c xs).map (· + 1)

/-- Index of the last occurrence of a character, `str.rfind` in Python. -/
def rfindIdxOf (c : Char) (cs : List Char) : Option Nat :=
  match findIdxOf c cs.reverse with
  | some i => some (cs.length - 1 - i)
  | none => none

/-- `ai_service.parse_best_job_json`: try the whole string; on failure take the
substring from the first brace to the last brace (when that span is nonempty)
and try that; otherwise give up. -/
def parse_best_job_json (raw : String) : Option JsonVal :=
  match json_loads raw with
  | some v => some v
  | none =>
    let cs := raw.toList
    match findIdxOf '{' cs, rfindIdxOf '}' cs with
    | some s, some e =>
      if s < e then json_loads (String.mk ((cs.drop s).take (e + 1 - s)))
      else none
    | some _, none => none
    | none, _ => none

/-- `dict.get` on the dictionary a JSON object parses to: the last binding of
the key wins, as in a Python `dict` built by the json module. -/
def objLookup (fields : List (String × JsonVal)) (k : String) : Option JsonVal :=
  (fields.reverse.find? (fun kv => kv.1 = k)).map (·.2)

/-- A row of the `Job` table (`models.Job`).  `created_at` is not carried as a
field: the job table is kept as a list in `order_by('-created_at')` order,
most recent first, so recency is the list order.  The decimal `salary` is an
opaque optional quantity. -/
structure Job where
  id : Nat
  employerId : Nat
  title : String
  description : String
  requirement : String
  salary : Option Int
  location : String
  is_active : Bool
deriving DecidableEq

/-- The per-job dictionary the recommendation view sends to the model:
id, title, description, requirement and location only. -/
structure JobPayload where
  id : Nat
  title : String
  description : String
  requirement : String
  location : String
deriving DecidableEq

/-- The payload entry built from a job row in `AIJobRecommendationView.post`. -/
def jobPayloadOf (j : Job) : JobPayload :=
  { id := j.id, title := j.title, description := j.description
    requirement := j.requirement, location := j.location }

/-- A failure of the single `requests.post` in `call_openrouter`: a non-2xx
status surfaced by `raise_for_status`, a timeout, or an unreachable endpoint.
All of them raise out of `call_openrouter`, which has no handler. -/
inductive CallFailure where
  | httpError (statusCode : Nat)
  | timeout
  | connectionError
deriving DecidableEq

/-- A Python exception escaping the recommendation pipeline: either a
transport failure of the external call, or the `AttributeError` raised by
calling `.get` on a non-dict parse result. -/
inductive PyExn where
  | external (e : CallFailure)
  | attributeError
deriving DecidableEq

/-- The dictionary `recommend_best_job` returns:
`{"best_job_id": ..., "score": ..., "reason": ..., "raw": raw}`.  A field is
`none` when `dict.get` returned Python `None` because the key was absent. -/
structure RecoResult where
  best_job_id : Option JsonVal
  score : Option JsonVal
  reason : Option JsonVal
  raw : String

/-- `ai_service.recommend_best_job`.  The external model call is represented
by its outcome `callOutcome`: either the extracted reply text or a transport
failure (the network is outside the program; `_build_messages` only feeds the
call, so `resume_text` and `jobs` do not influence the local computation).
`parsed = parse_best_job_json(raw) or {}` replaces a parse failure or a falsy
parse result by the empty dict; the subsequent `.get` calls raise
`AttributeError` when the parse produced a truthy non-object value. -/
def recommend_best_job (resume_text : String) (jobs : List JobPayload)
    (callOutcome : Except CallFailure String) : Except PyExn RecoResult :=
  match callOutcome with
  | Except.error e => Except.error (PyExn.external e)
  | Except.ok raw =>
    let parsed : JsonVal :=
      match parse_best_job_json raw with
      | none => JsonVal.obj []
      | some v => if v.truthy then v else JsonVal.obj []
    match parsed with
    | JsonVal.obj fields =>
      Except.ok
        { best_job_id := objLookup fields "best_job_id"
          score := objLookup fields "score"
          reason := objLookup fields "reason"
          raw := raw }
    | _ => Except.error PyExn.attributeError

/-- The active-job pool the recommendation view fetches:
`Job.objects.filter(is_active=True).order_by('-created_at')[:max(5, limit)]`.
The database list is most-recent-first, so the slice is a prefix of the
active jobs. -/
def jobsQs (db : List Job) (limit : Nat) : List Job :=
  (db.filter (·.is_active)).take (max 5 limit)

/-- Equality test of the ORM lookup `filter(pk=best_id, ...)` between the
model-returned JSON value and a row id.  An integral JSON number equals the
row id it denotes; other reply shapes are modelled as matching no row (the
ORM's coercion of booleans, floats and numeric strings to integers is an
external-store edge case no claim involves). -/
def pkMatches (v : JsonVal) (id : Nat) : Bool :=
  match v with
  | JsonVal.num m e => e == 0 && m == Int.ofNat id
  | _ => false

/-- Resolution of `best_id` in the view: `if best_id:` (Python truthiness,
`None` and falsy JSON values skip the lookup) followed by
`Job.objects.filter(pk=best_id, is_active=True).first()` — a lookup in the
whole job table, not in the fetched pool. -/
def resolveBest (db : List Job) (best_id : Option JsonVal) : Option Job :=
  match best_id with
  | none => none
  | some v =>
    if v.truthy then db.find? (fun j => pkMatches v j.id && j.is_active)
    else none

/-- The three outcomes of `AIJobRecommendationView.post`: the 404 empty-pool
response, the 200 response carrying `recommendation.score`,
`recommendation.reason` and the serialized job, or a Python exception
propagating out of the view (there is no handler around
`recommend_best_job`). -/
inductive RecoResponse where
  | notFound (detail : String)
  | ok (score reason : Option JsonVal) (job : Job)
  | unhandled (e : PyExn)

/-- `AIJobRecommendationView.post`.  `resume_text` is the resolved resume
(request body, else the seeker profile's text); it only feeds the prompt.
`limit` is the coerced body parameter (default 25).  The empty-payload check
fires exactly when the fetched pool is empty; afterwards the model's id is
resolved against the whole table and the first pool element is the
fallback. -/
def aiRecommendJobPost (db : List Job) (resume_text : String) (limit : Nat)
    (callOutcome : Except CallFailure String) : RecoResponse :=
  match jobsQs db limit with
  | [] => RecoResponse.notFound "No active jobs available."
  | j0 :: _ =>
    match recommend_best_job resume_text ((jobsQs db limit).map jobPayloadOf) callOutcome with
    | Except.error e => RecoResponse.unhandled e
    | Except.ok result =>
      RecoResponse.ok result.score result.reason
        ((resolveBest db result.best_job_id).getD j0)

/-- A row of the user table (`models.CustomUser`).  Dates are opaque
strings. -/
structure UserRow where
  id : Nat
  email : String
  first_name : String
  last_name : String
  role : String
  is_active : Bool
  is_staff : Bool
  is_superuser : Bool
  phone : Option String
  gender : Option String
  dob : Option String
deriving DecidableEq

/-- A row of the `Employer` table. -/
structure EmployerRow where
  id : Nat
  userId : Nat
  company_name : String
deriving DecidableEq

/-- A row of the `JobSeeker` table. -/
structure JobSeekerRow where
  id : Nat
  userId : Nat
  resume_url : String
  resume_text : String
deriving DecidableEq

/-- A row of the `Application` table.  `status` holds one of the
`Application.Status` values; the model default is `"PENDING"`. -/
structure ApplicationRow where
  id : Nat
  jobId : Nat
  seekerId : Nat
  status : String
  match_score : Option Int
deriving DecidableEq

/-- A row of the `Interview` table.  Dates and times are opaque strings. -/
structure InterviewRow where
  id : Nat
  applicationId : Nat
  title : String
  date : String
  time : String
deriving DecidableEq

/-- A row of the `Appointment` table, which is one-to-one with
`Application`. -/
structure AppointmentRow where
  applicationId : Nat
  title : String
  time : String
  date : String
  content : String
deriving DecidableEq

/-- A row of the `Payment` table. -/
structure PaymentRow where
  id : Nat
  userId : Nat
  amount : Int
  payment_method : String
deriving DecidableEq

/-- The relational store.  Every table is a list of rows; the job table is
most-recent-first (see `Job`). -/
structure Db where
  users : List UserRow
  employers : List EmployerRow
  seekers : List JobSeekerRow
  jobs : List Job
  applications : List ApplicationRow
  interviews : List InterviewRow
  appointments : List AppointmentRow
  payments : List PaymentRow
deriving DecidableEq

/-- The requesting principal: `request.user` plus its authentication flag
(an anonymous request carries a dummy row with the flag false). -/
structure Requester where
  isAuthenticated : Bool
  user : UserRow
deriving DecidableEq

/-- An error response of a create view: a serializer-level validation error
(HTTP 400) or a `PermissionDenied` (HTTP 403) with its message. -/
inductive CreateErr where
  | validationErr (msg : String)
  | permissionDenied (msg : String)
deriving DecidableEq

/-- The valid `Application.Status` choices. -/
def validStatusChoices : List String :=
  ["PENDING", "REVIEW", "ACCEPTED", "REJECTED"]

/-- The id the application will reference for this user's seeker profile:
the existing profile's id, or the id the auto-provisioned profile would get
(`perform_create` creates a `JobSeeker` when the user lacks one). -/
def seekerIdFor (db : Db) (req : Requester) (newSeekerId : Nat) : Nat :=
  match db.seekers.find? (fun s => s.userId == req.user.id) with
  | some s => s.id
  | none => newSeekerId

/-- Tail of `ApplicationListView.perform_create` after the seeker profile is
in hand: the active-job gate, the duplicate check, and the save. -/
def applicationFinish (db1 : Db) (seeker : JobSeekerRow) (job : Job)
    (statusVal : String) (newAppId : Nat) : Db × Except CreateErr ApplicationRow :=
  if !job.is_active then
    (db1, Except.error (CreateErr.permissionDenied "This job is not available."))
  else if db1.applications.any (fun a => a.jobId == job.id && a.seekerId == seeker.id) then
    (db1, Except.error (CreateErr.permissionDenied "You have already applied to this job."))
  else
    let app : ApplicationRow := ⟨newAppId, job.id, seeker.id, statusVal, none⟩
    ({ db1 with applications := db1.applications ++ [app] }, Except.ok app)

/-- `ApplicationListView.perform_create`, after serializer validation: role
gate, lazy seeker-profile provisioning, then `applicationFinish`.  The
returned store includes a provisioned seeker profile even when a later check
denies the request, since nothing rolls it back. -/
def applicationPerformCreate (db : Db) (req : Requester) (job : Job)
    (statusVal : String) (newAppId newSeekerId : Nat) :
    Db × Except CreateErr ApplicationRow :=
  if !(req.isAuthenticated && req.user.role == "seeker") then
    (db, Except.error (CreateErr.permissionDenied "Only job seekers can apply."))
  else
    match db.seekers.find? (fun s => s.userId == req.user.id) with
    | some s => applicationFinish db s job statusVal newAppId
    | none =>
      applicationFinish
        { db with seekers := db.seekers ++ [⟨newSeekerId, req.user.id, "", ""⟩] }
        ⟨newSeekerId, req.user.id, "", ""⟩ job statusVal newAppId

/-- `POST /applications/`: serializer validation (the job primary key must
exist, a supplied status must be a valid choice, the status defaults to the
model default `"PENDING"`) followed by `perform_create`. -/
def applicationCreate (db : Db) (req : Requester) (jobIdParam : Nat)
    (statusParam : Option String) (newAppId newSeekerId : Nat) :
    Db × Except CreateErr ApplicationRow :=
  match db.jobs.find? (fun j => j.id == jobIdParam) with
  | none => (db, Except.error (CreateErr.validationErr "Invalid pk - object does not exist."))
  | some job =>
    match statusParam with
    | none => applicationPerformCreate db req job "PENDING" newAppId newSeekerId
    | some s =>
      if validStatusChoices.contains s then
        applicationPerformCreate db req job s newAppId newSeekerId
      else (db, Except.error (CreateErr.validationErr "not a valid choice."))

/-- `Appointment.objects.update_or_create(application=app, defaults={...})`:
update every non-key field of the existing row for this application, or
append a fresh row. -/
def updateOrCreateAppointment (apps : List AppointmentRow) (appId : Nat)
    (title date time content : String) : List AppointmentRow :=
  if apps.any (fun a => a.applicationId == appId) then
    apps.map (fun a =>
      if a.applicationId == appId then
        { a with title := title, date := date, time := time, content := content }
      else a)
  else
    apps ++ [⟨appId, title, time, date, content⟩]

/-- `POST /interviews/`: serializer validation (the application primary key
must exist) followed by `InterviewListCreateView.perform_create`: provider
gate, ownership of the job behind the application, the interview save, and
the appointment upsert with the interview's title, date, time and the content
string `"Interview: " ++ title`.  A job row missing for the application's
foreign key (impossible in the real store) is treated as not owned. -/
def interviewCreate (db : Db) (req : Requester) (applicationIdParam : Nat)
    (title date time : String) (newInterviewId : Nat) :
    Db × Except CreateErr InterviewRow :=
  match db.applications.find? (fun a => a.id == applicationIdParam) with
  | none => (db, Except.error (CreateErr.validationErr "Invalid pk - object does not exist."))
  | some app =>
    if !req.isAuthenticated || req.user.role != "provider" then
      (db, Except.error (CreateErr.permissionDenied "Only providers can schedule interviews."))
    else
      match db.employers.find? (fun e => e.userId == req.user.id) with
      | none =>
        (db, Except.error (CreateErr.permissionDenied "Only providers can schedule interviews."))
      | some emp =>
        match db.jobs.find? (fun j => j.id == app.jobId) with
        | none => (db, Except.error (CreateErr.permissionDenied "Not allowed."))
        | some job =>
          if job.employerId != emp.id then
            (db, Except.error (CreateErr.permissionDenied "Not allowed."))
          else
            let iv : InterviewRow := ⟨newInterviewId, app.id, title, date, time⟩
            ({ db with
                interviews := db.interviews ++ [iv]
                appointments := updateOrCreateAppointment db.appointments app.id title date
                  time ("Interview: " ++ title) },
              Except.ok iv)

/-- The row update of the admin soft delete. -/
def deactivateUser (u : UserRow) : UserRow :=
  { u with is_active := false }

/-- The user table after `instance.save(update_fields=['is_active'])`: the
fetched row (and only it) has `is_active` flipped to false. -/
def softDeleteMap (pk : Nat) (l : List UserRow) : List UserRow :=
  l.map (fun u => if u.id == pk then deactivateUser u else u)

/-- `AdminUserRetrieveUpdateDestroyView.destroy`: fetch the user by primary
key (404 when absent), flip `is_active` to false on that row only
(`save(update_fields=['is_active'])`), and answer 204.  No row of any table
is removed. -/
def adminUserDestroy (db : Db) (pk : Nat) : Db × Nat :=
  match db.users.find? (fun u => u.id == pk) with
  | none => (db, 404)
  | some _ => ({ db with users := softDeleteMap pk db.users }, 204)

/-- The HTTP methods a `RetrieveUpdateDestroyAPIView` dispatches on. -/
inductive HttpMethod where
  | GET
  | PUT
  | PATCH
  | DELETE
deriving DecidableEq

/-- `JobRetrieveUpdateDestroyView.get_object`: for a GET the object is
returned exactly when it is active; every other path falls off the end of the
method (Python returns `None`).  No branch raises `PermissionDenied` and the
requesting user is never consulted, so no ownership check exists for
mutations. -/
def jobGetObject (req : Requester) (method : HttpMethod) (obj : Job) : Option Job :=
  if method = HttpMethod.GET then
    if obj.is_active then some obj else none
  else none

/-!
Fixtures: small concrete stores used by counterexamples and witnesses.
-/

/-- An active job owned by employer 1. -/
def fxJob (i : Nat) : Job :=
  { id := i, employerId := 1, title := "t", description := "d", requirement := "r"
    salary := none, location := "l", is_active := true }

/-- Six active jobs, most recent first. -/
def fxJobs6 : List Job :=
  [fxJob 1, fxJob 2, fxJob 3, fxJob 4, fxJob 5, fxJob 6]

/-- The reply of the spec's extraction example. -/
def fxReply : String :=
  "Sure! \x7b\"best_job_id\": 2, \"score\": 91, \"reason\": \"skills match\"\x7d"

/-- A seeker user. -/
def fxSeekerUser : UserRow :=
  { id := 1, email := "seeker@example.com", first_name := "a", last_name := "b"
    role := "seeker", is_active := true, is_staff := false, is_superuser := false
    phone := none, gender := none, dob := none }

/-- A provider user, owner of employer 1. -/
def fxProviderUser : UserRow :=
  { fxSeekerUser with id := 2, email := "provider@example.com", role := "provider" }

/-- A store with both users, one employer, one seeker profile and one active
job. -/
def fxDb : Db :=
  { users := [fxSeekerUser, fxProviderUser]
    employers := [⟨1, 2, "co"⟩]
    seekers := [⟨1, 1, "", ""⟩]
    jobs := [fxJob 1]
    applications := []
    interviews := []
    appointments := []
    payments := [] }

/-- `fxDb` with one pending application (id 5) of seeker 1 for job 1. -/
def fxDbApp : Db := { fxDb with applications := [⟨5, 1, 1, "PENDING", none⟩] }

/-- The authenticated seeker request. -/
def fxSeekerReq : Requester := ⟨true, fxSeekerUser⟩

/-- The authenticated provider request. -/
def fxProviderReq : Requester := ⟨true, fxProviderUser⟩

/-!
Helper lemmas about the recommendation pipeline.
-/

/-- A member of the fetched pool is an active job of the table. -/
lemma mem_jobsQs {db : List Job} {limit : Nat} {j : Job} (h : j ∈ jobsQs db limit) :
    j.is_active = true ∧ j ∈ db := by
  have h1 : j ∈ db.filter (·.is_active) := List.take_subset _ _ h
  have h2 := List.mem_filter.mp h1
  exact ⟨h2.2, h2.1⟩

/-- Whatever id the model named, a successful resolution yields an active job
of the table. -/
lemma resolveBest_eq_some {db : List Job} {b : Option JsonVal} {j : Job}
    (h : resolveBest db b = some j) : j.is_active = true ∧ j ∈ db := by
  cases b with
  | none => simp [resolveBest] at h
  | some v =>
    cases hv : v.truthy with
    | false => simp [resolveBest, hv] at h
    | true =>
      simp only [resolveBest, hv, if_true] at h
      have hp := List.find?_some h
      have hm := List.mem_of_find?_eq_some h
      simp only [Bool.and_eq_true] at hp
      exact ⟨hp.2, hm⟩

/-- When the reply has no parsable JSON object, `recommend_best_job` returns
the all-`None` structured result. -/
lemma recommend_best_job_parse_fail (resume_text : String) (jobs : List JobPayload)
    {raw : String} (h : parse_best_job_json raw = none) :
    recommend_best_job resume_text jobs (Except.ok raw)
      = Except.ok { best_job_id := none, score := none, reason := none, raw := raw } := by
  simp [recommend_best_job, h, objLookup]

/-- The 200 path of the view, as a function of the pool head and the
structured result. -/
lemma aiRecommendJobPost_ok_case {db : List Job} {resume_text : String} {limit : Nat}
    {co : Except CallFailure String} {j0 : Job} {rest : List Job} {res : RecoResult}
    (hq : jobsQs db limit = j0 :: rest)
    (hr : recommend_best_job resume_text ((jobsQs db limit).map jobPayloadOf) co
            = Except.ok res) :
    aiRecommendJobPost db resume_text limit co
      = RecoResponse.ok res.score res.reason ((resolveBest db res.best_job_id).getD j0) := by
  rw [hq] at hr
  unfold aiRecommendJobPost
  rw [hq, hr]

/-!
Claim theorems.
-/

/-- Claim C5: the reply parse first attempts a whole-string JSON parse; when
that fails it parses exactly the substring from the first brace to the last
brace; the spec's example reply yields `best_job_id = 2` and `score = 91`;
and when both attempts fail the structured result has `best_job_id`, `score`
and `reason` all `None`. -/
theorem c5_parse_pipeline_spec :
    (∀ (raw : String) (v : JsonVal),
        json_loads raw = some v → parse_best_job_json raw = some v) ∧
    (∀ (raw : String) (s e : Nat),
        json_loads raw = none →
        findIdxOf '{' raw.toList = some s →
        rfindIdxOf '}' raw.toList = some e →
        s < e →
        parse_best_job_json raw
          = json_loads (String.mk ((raw.toList.drop s).take (e + 1 - s)))) ∧
    (recommend_best_job "" [] (Except.ok fxReply)
        = Except.ok
            { best_job_id := some (JsonVal.num 2 0), score := some (JsonVal.num 91 0)
              reason := some (JsonVal.str "skills match"), raw := fxReply }) ∧
    (aiRecommendJobPost [fxJob 1, fxJob 2] "" 25 (Except.ok fxReply)
        = RecoResponse.ok (some (JsonVal.num 91 0)) (some (JsonVal.str "skills match"))
            (fxJob 2)) ∧
    (∀ (resume_text : String) (jobs : List JobPayload) (raw : String),
        parse_best_job_json raw = none →
        recommend_best_job resume_text jobs (Except.ok raw)
          = Except.ok { best_job_id := none, score := none, reason := none, raw := raw }) := by
  refine ⟨?_, ?_, rfl, rfl, ?_⟩
  · intro raw v h
    simp [parse_best_job_json, h]
  · intro raw s e h hs he hlt
    simp only [parse_best_job_json, h, hs, he]
    rw [if_pos hlt]
  · intro resume_text jobs raw h
    exact recommend_best_job_parse_fail resume_text jobs h

/-- Witness for C5: the three implications applied at concrete replies. -/
theorem c5_witness :
    parse_best_job_json "7" = some (JsonVal.num 7 0) ∧
    parse_best_job_json "ok \x7b\"a\": 1\x7d"
      = json_loads (String.mk ((("ok \x7b\"a\": 1\x7d").toList.drop 3).take 8)) ∧
    recommend_best_job "" [] (Except.ok "garbage")
      = Except.ok { best_job_id := none, score := none, reason := none, raw := "garbage" } :=
  ⟨c5_parse_pipeline_spec.1 "7" (JsonVal.num 7 0) rfl,
   c5_parse_pipeline_spec.2.1 "ok \x7b\"a\": 1\x7d" 3 10 rfl rfl rfl (by decide),
   c5_parse_pipeline_spec.2.2.2.2 "" [] "garbage" rfl⟩

/-- Claim C8 (code bug): a reply that parses as a truthy non-object JSON
value (a bare nonzero number, a nonempty array, a nonempty string) makes
`recommend_best_job` raise `AttributeError` out of the view instead of
returning the all-`None` structured result. -/
theorem c8_nonobject_reply_raises :
    recommend_best_job "" [] (Except.ok "5") = Except.error PyExn.attributeError ∧
    aiRecommendJobPost fxJobs6 "" 25 (Except.ok "5")
      = RecoResponse.unhandled PyExn.attributeError ∧
    recommend_best_job "" [] (Except.ok "[1, 2]") = Except.error PyExn.attributeError ∧
    recommend_best_job "" [] (Except.ok "\"yes\"") = Except.error PyExn.attributeError ∧
    recommend_best_job "" [] (Except.ok "0")
      = Except.ok { best_job_id := none, score := none, reason := none, raw := "0" } :=
  ⟨rfl, rfl, rfl, rfl, rfl⟩

/-- Claim C2: when the model reply has no parsable JSON object, the endpoint
with a non-empty fetched pool answers 200 with the first (most recent) job of
the pool and `score = reason = None`; no error escapes. -/
theorem c2_unparsable_reply_falls_back :
    ∀ (db : List Job) (resume_text : String) (limit : Nat) (raw : String)
      (j0 : Job) (rest : List Job),
      parse_best_job_json raw = none →
      jobsQs db limit = j0 :: rest →
      aiRecommendJobPost db resume_text limit (Except.ok raw)
        = RecoResponse.ok none none j0 := by
  intro db resume_text limit raw j0 rest hp hq
  have hr := recommend_best_job_parse_fail resume_text
    ((jobsQs db limit).map jobPayloadOf) hp
  have h := aiRecommendJobPost_ok_case hq hr
  simpa [resolveBest] using h

/-- Witness for C2: the spec's garbage-reply example on the six-job store. -/
theorem c2_witness :
    aiRecommendJobPost fxJobs6 "" 25 (Except.ok "I cannot help with that.")
      = RecoResponse.ok none none (fxJob 1) :=
  c2_unparsable_reply_falls_back fxJobs6 "" 25 "I cannot help with that." (fxJob 1)
    [fxJob 2, fxJob 3, fxJob 4, fxJob 5, fxJob 6] rfl rfl

/-- Claim C6: the endpoint answers the 404 "no jobs available" outcome
exactly when the fetched active-job pool is empty; with a non-empty pool the
outcome is a 200 or a propagated exception, never the 404. -/
theorem c6_notfound_iff_empty_pool :
    ∀ (db : List Job) (resume_text : String) (limit : Nat)
      (co : Except CallFailure String),
      aiRecommendJobPost db resume_text limit co
          = RecoResponse.notFound "No active jobs available."
        ↔ jobsQs db limit = [] := by
  intro db resume_text limit co
  constructor
  · intro h
    cases hq : jobsQs db limit with
    | nil => rfl
    | cons j0 rest =>
      exfalso
      unfold aiRecommendJobPost at h
      rw [hq] at h
      cases hr : recommend_best_job resume_text ((j0 :: rest).map jobPayloadOf) co with
      | error e =>
        rw [hr] at h
        exact RecoResponse.noConfusion h
      | ok res =>
        rw [hr] at h
        exact RecoResponse.noConfusion h
  · intro h
    unfold aiRecommendJobPost
    rw [h]

/-- Witness for C6: both directions at concrete stores. -/
theorem c6_witness :
    aiRecommendJobPost [] "" 25 (Except.ok "x")
      = RecoResponse.notFound "No active jobs available." ∧
    jobsQs fxJobs6 25 ≠ [] :=
  ⟨(c6_notfound_iff_empty_pool [] "" 25 (Except.ok "x")).mpr rfl,
   fun h => by
     have := (c6_notfound_iff_empty_pool fxJobs6 "" 25 (Except.ok "x")).mpr h
     exact RecoResponse.noConfusion this⟩

/-- Claim C7: a transport failure of the single external call (non-2xx,
timeout, unreachable endpoint) propagates out of `recommend_best_job` and out
of the endpoint; no fallback job is substituted. -/
theorem c7_transport_failure_propagates :
    (∀ (resume_text : String) (jobs : List JobPayload) (e : CallFailure),
        recommend_best_job resume_text jobs (Except.error e)
          = Except.error (PyExn.external e)) ∧
    (∀ (db : List Job) (resume_text : String) (limit : Nat) (e : CallFailure)
       (j0 : Job) (rest : List Job),
        jobsQs db limit = j0 :: rest →
        aiRecommendJobPost db resume_text limit (Except.error e)
          = RecoResponse.unhandled (PyExn.external e)) := by
  refine ⟨fun _ _ _ => rfl, ?_⟩
  intro db resume_text limit e j0 rest hq
  unfold aiRecommendJobPost
  rw [hq]
  rfl

/-- Witness for C7: a timeout on the six-job store. -/
theorem c7_witness :
    aiRecommendJobPost fxJobs6 "" 25 (Except.error CallFailure.timeout)
      = RecoResponse.unhandled (PyExn.external CallFailure.timeout) :=
  c7_transport_failure_propagates.2 fxJobs6 "" 25 CallFailure.timeout (fxJob 1)
    [fxJob 2, fxJob 3, fxJob 4, fxJob 5, fxJob 6] rfl

/-- Claim C1 counterexample: with six active jobs and `limit = 1` the fetched
pool is the five most recent jobs; a reply naming job 6 — an active job
outside the pool — makes the endpoint return job 6, which is not a member of
the pool, so neither the membership claim nor the claimed fallback-on-non-pool
ids holds. -/
theorem c1_counterexample :
    aiRecommendJobPost fxJobs6 "" 1
        (Except.ok "\x7b\"best_job_id\": 6, \"score\": 50, \"reason\": \"x\"\x7d")
      = RecoResponse.ok (some (JsonVal.num 50 0)) (some (JsonVal.str "x")) (fxJob 6)
    ∧ fxJob 6 ∉ jobsQs fxJobs6 1 :=
  ⟨rfl, by decide⟩

/-- Claim C1 as amended: the endpoint's 200 response always carries an
active job of the job table; the id named by the model is resolved against
the whole table, and the deterministic fallback to the first pool element
applies exactly when that resolution yields nothing (absent, falsy,
non-matching or inactive id) — the unparsable case included. -/
theorem c1_active_job_db_wide_resolution :
    (∀ (db : List Job) (resume_text : String) (limit : Nat)
       (co : Except CallFailure String) (s r : Option JsonVal) (j : Job),
        aiRecommendJobPost db resume_text limit co = RecoResponse.ok s r j →
          j.is_active = true ∧ j ∈ db) ∧
    (∀ (db : List Job) (resume_text : String) (limit : Nat) (raw : String)
       (res : RecoResult) (j0 : Job) (rest : List Job),
        jobsQs db limit = j0 :: rest →
        recommend_best_job resume_text ((jobsQs db limit).map jobPayloadOf)
            (Except.ok raw) = Except.ok res →
        resolveBest db res.best_job_id = none →
        aiRecommendJobPost db resume_text limit (Except.ok raw)
          = RecoResponse.ok res.score res.reason j0) := by
  constructor
  · intro db resume_text limit co s r j h
    unfold aiRecommendJobPost at h
    cases hq : jobsQs db limit with
    | nil =>
      rw [hq] at h
      exact RecoResponse.noConfusion h
    | cons j0 rest =>
      rw [hq] at h
      cases hr : recommend_best_job resume_text ((j0 :: rest).map jobPayloadOf) co with
      | error e =>
        rw [hr] at h
        exact RecoResponse.noConfusion h
      | ok res =>
        rw [hr] at h
        have hj : j = (resolveBest db res.best_job_id).getD j0 :=
          (RecoResponse.noConfusion h fun _ _ hj => hj.symm)
        cases hb : resolveBest db res.best_job_id with
        | some j' =>
          have := resolveBest_eq_some hb
          rw [hb] at hj
          simpa [hj] using this
        | none =>
          rw [hb] at hj
          have hmem : j ∈ jobsQs db limit := by
            rw [hq, hj]
            exact List.mem_cons_self _ _
          exact mem_jobsQs hmem
  · intro db resume_text limit raw res j0 rest hq hr hnone
    have h := aiRecommendJobPost_ok_case hq hr
    rw [hnone] at h
    exact h

/-- Witness for C1 (amended): both parts at concrete inputs. -/
theorem c1_witness :
    ((fxJob 1).is_active = true ∧ fxJob 1 ∈ fxJobs6) ∧
    aiRecommendJobPost fxJobs6 "" 25 (Except.ok "nope")
      = RecoResponse.ok none none (fxJob 1) :=
  ⟨c1_active_job_db_wide_resolution.1 fxJobs6 "" 25 (Except.ok "nope") none none
      (fxJob 1) rfl,
   c1_active_job_db_wide_resolution.2 fxJobs6 "" 25 "nope"
      { best_job_id := none, score := none, reason := none, raw := "nope" } (fxJob 1)
      [fxJob 2, fxJob 3, fxJob 4, fxJob 5, fxJob 6] rfl rfl rfl⟩

/-- Claim C10: the job object-retrieval layer hands out the object for a GET
exactly when the job is active, never raises a denial, ignores the requesting
user entirely (hence no ownership check on any method), and yields no object
for the mutating methods. -/
theorem c10_get_object_no_ownership_check :
    (∀ (req : Requester) (j : Job),
        jobGetObject req HttpMethod.GET j = some j ↔ j.is_active = true) ∧
    (∀ (req req' : Requester) (m : HttpMethod) (j : Job),
        jobGetObject req m j = jobGetObject req' m j) ∧
    (∀ (req : Requester) (m : HttpMethod) (j : Job),
        m ≠ HttpMethod.GET → jobGetObject req m j = none) := by
  refine ⟨?_, fun _ _ _ _ => rfl, ?_⟩
  · intro req j
    cases hj : j.is_active <;> simp [jobGetObject, hj]
  · intro req m j hm
    simp [jobGetObject, hm]

/-- Witness for C10: concrete method/job instances. -/
theorem c10_witness :
    jobGetObject fxSeekerReq HttpMethod.GET (fxJob 1) = some (fxJob 1) ∧
    jobGetObject fxSeekerReq HttpMethod.DELETE (fxJob 1) = none :=
  ⟨(c10_get_object_no_ownership_check.1 fxSeekerReq (fxJob 1)).mpr rfl,
   c10_get_object_no_ownership_check.2.2 fxSeekerReq HttpMethod.DELETE (fxJob 1)
     (by decide)⟩

/-- The identifier of a user row is untouched by the soft delete. -/
lemma deactivateUser_id (u : UserRow) : (deactivateUser u).id = u.id := rfl

/-- Soft deletion of a row is idempotent. -/
lemma deactivateUser_idem (u : UserRow) :
    deactivateUser (deactivateUser u) = deactivateUser u := rfl

/-- The soft-deleted table still answers the primary-key lookup, with the
fetched row deactivated and otherwise unchanged. -/
lemma softDeleteMap_find {pk : Nat} :
    ∀ {l : List UserRow} {u : UserRow},
      l.find? (fun v => v.id == pk) = some u →
      (softDeleteMap pk l).find? (fun v => v.id == pk) = some (deactivateUser u) := by
  intro l
  induction l with
  | nil => intro u h; simp at h
  | cons a l ih =>
    intro u h
    by_cases ha : (a.id == pk) = true
    · rw [@List.find?_cons_of_pos _ (fun v => v.id == pk) a l ha] at h
      have hau : a = u := by simpa using h
      subst hau
      simp only [softDeleteMap, List.map_cons, if_pos ha]
      exact @List.find?_cons_of_pos _ (fun v => v.id == pk) (deactivateUser a) _ ha
    · rw [@List.find?_cons_of_neg _ (fun v => v.id == pk) a l ha] at h
      simp only [softDeleteMap, List.map_cons, if_neg ha]
      rw [@List.find?_cons_of_neg _ (fun v => v.id == pk) a _ ha]
      exact ih h

/-- Applying the soft delete twice equals applying it once. -/
lemma softDeleteMap_idem (pk : Nat) (l : List UserRow) :
    softDeleteMap pk (softDeleteMap pk l) = softDeleteMap pk l := by
  induction l with
  | nil => rfl
  | cons a l ih =>
    by_cases ha : (a.id == pk) = true
    · simp only [softDeleteMap, List.map_cons, if_pos ha] at *
      rw [if_pos (by rw [deactivateUser_id]; exact ha), deactivateUser_idem, ih]
    · simp only [softDeleteMap, List.map_cons, if_neg ha] at *
      rw [ih]

/-- Rows with a different id survive the soft delete unchanged. -/
lemma softDeleteMap_mem_other {pk : Nat} {l : List UserRow} {v : UserRow}
    (hv : v ∈ l) (hne : v.id ≠ pk) : v ∈ softDeleteMap pk l := by
  have h1 : (if (v.id == pk) = true then deactivateUser v else v) ∈ softDeleteMap pk l :=
    List.mem_map_of_mem _ hv
  rwa [if_neg (by simp [hne])] at h1

/-- Claim C9: the admin delete never removes the row: it deactivates the
fetched user (leaving its other fields intact), answers 204, keeps every
other user row and every other table unchanged, and a second delete is
idempotent (same store, again 204). -/
theorem c9_soft_delete_frame_idempotent :
    ∀ (db : Db) (pk : Nat) (u : UserRow),
      db.users.find? (fun v => v.id == pk) = some u →
      (adminUserDestroy db pk).2 = 204
      ∧ (adminUserDestroy db pk).1.users.find? (fun v => v.id == pk)
          = some (deactivateUser u)
      ∧ (adminUserDestroy db pk).1.users.length = db.users.length
      ∧ (∀ v ∈ db.users, v.id ≠ pk → v ∈ (adminUserDestroy db pk).1.users)
      ∧ (adminUserDestroy db pk).1.employers = db.employers
      ∧ (adminUserDestroy db pk).1.seekers = db.seekers
      ∧ (adminUserDestroy db pk).1.jobs = db.jobs
      ∧ (adminUserDestroy db pk).1.applications = db.applications
      ∧ (adminUserDestroy db pk).1.interviews = db.interviews
      ∧ (adminUserDestroy db pk).1.appointments = db.appointments
      ∧ (adminUserDestroy db pk).1.payments = db.payments
      ∧ adminUserDestroy (adminUserDestroy db pk).1 pk = ((adminUserDestroy db pk).1, 204) := by
  intro db pk u h
  have hd : adminUserDestroy db pk = ({ db with users := softDeleteMap pk db.users }, 204) := by
    unfold adminUserDestroy
    rw [h]
  rw [hd]
  refine ⟨rfl, softDeleteMap_find h, ?_, ?_, rfl, rfl, rfl, rfl, rfl, rfl, rfl, ?_⟩
  · exact List.length_map _ _
  · intro v hv hne
    exact softDeleteMap_mem_other hv hne
  · unfold adminUserDestroy
    rw [softDeleteMap_find h]
    rw [Prod.mk.injEq]
    refine ⟨?_, rfl⟩
    rw [softDeleteMap_idem]

/-- Witness for C9: soft delete of user 1 in the fixture store. -/
theorem c9_witness :
    (adminUserDestroy fxDb 1).2 = 204 ∧
    (adminUserDestroy fxDb 1).1.users.find? (fun v => v.id == 1)
      = some (deactivateUser fxSeekerUser) ∧
    adminUserDestroy (adminUserDestroy fxDb 1).1 1 = ((adminUserDestroy fxDb 1).1, 204) := by
  obtain ⟨h1, h2, -, -, -, -, -, -, -, -, -, h12⟩ :=
    c9_soft_delete_frame_idempotent fxDb 1 fxSeekerUser rfl
  exact ⟨h1, h2, h12⟩

/-- The one-to-one invariant of the appointment table: at most one row per
application, i.e. pairwise distinct application ids. -/
def apptKeyUnique (apps : List AppointmentRow) : Prop :=
  apps.Pairwise (fun a b => a.applicationId ≠ b.applicationId)

/-- The upsert's field update leaves the key untouched. -/
lemma upsertRow_key (a : AppointmentRow) (t d tm c : String) :
    ({ a with title := t, date := d, time := tm, content := c }
        : AppointmentRow).applicationId
      = a.applicationId := rfl

/-- The upsert's update pass is the identity on a table without the key. -/
lemma updateMap_of_not_mem {as : List AppointmentRow} {appId : Nat}
    (hnone : ∀ b ∈ as, b.applicationId ≠ appId) (title date time content : String) :
    as.map (fun x =>
        if x.applicationId == appId then
          { x with title := title, date := date, time := time, content := content }
        else x)
      = as := by
  have hcongr : ∀ b ∈ as,
      (if b.applicationId == appId then
          ({ b with title := title, date := date, time := time, content := content }
            : AppointmentRow)
        else b)
        = id b := by
    intro b hb
    rw [if_neg (by simp [hnone b hb])]
    rfl
  rw [List.map_congr_left hcongr, List.map_id]

/-- Under the one-per-application invariant, the upsert leaves exactly one
row for the application, carrying the upserted fields. -/
lemma updateOrCreate_filter {appId : Nat} (title date time content : String) :
    ∀ {apps : List AppointmentRow}, apptKeyUnique apps →
      (updateOrCreateAppointment apps appId title date time content).filter
          (fun x => x.applicationId == appId)
        = [⟨appId, title, time, date, content⟩] := by
  intro apps
  induction apps with
  | nil =>
    intro _
    simp [updateOrCreateAppointment]
  | cons a as ih =>
    intro h
    rw [apptKeyUnique, List.pairwise_cons] at h
    obtain ⟨hhead, htail⟩ := h
    by_cases ha : (a.applicationId == appId) = true
    · have haeq : a.applicationId = appId := by simpa using ha
      have hnone : ∀ b ∈ as, b.applicationId ≠ appId := by
        intro b hb hc
        exact hhead b hb (haeq.trans hc.symm)
      have hany : ((a :: as).any fun x => x.applicationId == appId) = true := by
        simp [ha]
      have hfilter : as.filter (fun x => x.applicationId == appId) = [] := by
        rw [List.filter_eq_nil_iff]
        intro b hb
        simp [hnone b hb]
      simp only [updateOrCreateAppointment, hany, if_true, List.map_cons, if_pos ha,
        updateMap_of_not_mem hnone]
      simp [List.filter_cons, hfilter, haeq]
    · have hafalse : (a.applicationId == appId) = false := by simpa using ha
      by_cases hany2 : (as.any fun x => x.applicationId == appId) = true
      · have hany : ((a :: as).any fun x => x.applicationId == appId) = true := by
          simp [List.any_cons, hany2]
        have hup : updateOrCreateAppointment as appId title date time content
            = as.map (fun x =>
                if x.applicationId == appId then
                  { x with title := title, date := date, time := time, content := content }
                else x) := by
          simp only [updateOrCreateAppointment, hany2, if_true]
        have ih2 := ih htail
        rw [hup] at ih2
        simp only [updateOrCreateAppointment, hany, if_true, List.map_cons, if_neg ha]
        simp only [List.filter_cons, hafalse, Bool.false_eq_true, if_false]
        exact ih2
      · have hany2f : (as.any fun x => x.applicationId == appId) = false := by
          simpa using hany2
        have hany : ((a :: as).any fun x => x.applicationId == appId) = false := by
          simp [List.any_cons, hafalse, hany2f]
        have hfilter : (a :: as).filter (fun x => x.applicationId == appId) = [] := by
          rw [List.filter_eq_nil_iff]
          intro b hb
          rcases List.mem_cons.mp hb with hb | hb
          · subst hb
            simp [hafalse]
          · have := List.any_eq_false.mp hany2f b hb
            simpa using this
        simp only [updateOrCreateAppointment, hany, Bool.false_eq_true, if_false]
        rw [List.filter_append, hfilter]
        simp [List.filter_cons]

/-- The upsert preserves the one-per-application invariant. -/
lemma updateOrCreate_keyUnique {appId : Nat} (title date time content : String)
    {apps : List AppointmentRow} (h : apptKeyUnique apps) :
    apptKeyUnique (updateOrCreateAppointment apps appId title date time content) := by
  unfold updateOrCreateAppointment
  by_cases hany : (apps.any fun a => a.applicationId == appId) = true
  · rw [if_pos hany]
    rw [apptKeyUnique, List.pairwise_map]
    refine h.imp ?_
    intro a b hab
    by_cases hx : (a.applicationId == appId) = true <;>
      by_cases hy : (b.applicationId == appId) = true <;>
      simp [hx, hy, upsertRow_key, hab]
  · rw [if_neg hany]
    have hany' : (apps.any fun a => a.applicationId == appId) = false := by
      simpa using hany
    rw [apptKeyUnique, List.pairwise_append]
    refine ⟨h, List.pairwise_singleton _ _, ?_⟩
    intro a hain b hbin
    have hb : b = (⟨appId, title, time, date, content⟩ : AppointmentRow) := by
      simpa using hbin
    subst hb
    have := List.any_eq_false.mp hany' a hain
    simpa using this

/-- Shape of a successful interview creation: the saved interview row, the
appended interview table and the upserted appointment table. -/
lemma interviewCreate_ok {db : Db} {req : Requester} {aid : Nat}
    {t d tm : String} {nid : Nat} {db' : Db} {iv : InterviewRow}
    (h : interviewCreate db req aid t d tm nid = (db', Except.ok iv)) :
    iv = ⟨nid, aid, t, d, tm⟩
    ∧ db'.interviews = db.interviews ++ [iv]
    ∧ db'.appointments
        = updateOrCreateAppointment db.appointments aid t d tm ("Interview: " ++ t) := by
  unfold interviewCreate at h
  split at h
  next hfa => simp at h
  next app hfa =>
    have happ : app.id = aid := by simpa using List.find?_some hfa
    split at h
    next hauth => simp at h
    next hauth =>
      split at h
      next hemp => simp at h
      next emp hemp =>
        split at h
        next hjob => simp at h
        next job hjob =>
          split at h
          next hown => simp at h
          next hown =>
            rw [Prod.mk.injEq] at h
            obtain ⟨hdb, hiv⟩ := h
            have hiv' : iv = ⟨nid, app.id, t, d, tm⟩ := by
              simpa using hiv.symm
            rw [happ] at hiv'
            subst hiv'
            rw [← hdb, happ]
            exact ⟨rfl, rfl, rfl⟩

/-- Claim C4: a successful interview creation leaves exactly one appointment
for the application, whose title, date and time are the interview's and whose
content is `"Interview: " ++ title`; the invariant of one appointment per
application is preserved, so a second interview creation for the same
application overwrites that appointment with the second interview's fields
rather than adding a row. -/
theorem c4_interview_appointment_upsert :
    ∀ (db : Db) (req : Requester) (aid : Nat) (t d tm : String) (nid : Nat)
      (db' : Db) (iv : InterviewRow),
      interviewCreate db req aid t d tm nid = (db', Except.ok iv) →
      apptKeyUnique db.appointments →
      db'.appointments.filter (fun x => x.applicationId == aid)
          = [⟨aid, t, tm, d, "Interview: " ++ t⟩]
      ∧ apptKeyUnique db'.appointments
      ∧ db'.interviews = db.interviews ++ [⟨nid, aid, t, d, tm⟩]
      ∧ (∀ (req2 : Requester) (t2 d2 tm2 : String) (nid2 : Nat) (db'' : Db)
           (iv2 : InterviewRow),
          interviewCreate db' req2 aid t2 d2 tm2 nid2 = (db'', Except.ok iv2) →
          db''.appointments.filter (fun x => x.applicationId == aid)
            = [⟨aid, t2, tm2, d2, "Interview: " ++ t2⟩]) := by
  intro db req aid t d tm nid db' iv h huniq
  obtain ⟨hiv, hintv, happt⟩ := interviewCreate_ok h
  subst hiv
  have huniq' : apptKeyUnique db'.appointments := by
    rw [happt]
    exact updateOrCreate_keyUnique _ _ _ _ huniq
  refine ⟨?_, huniq', hintv, ?_⟩
  · rw [happt]
    exact updateOrCreate_filter _ _ _ _ huniq
  · intro req2 t2 d2 tm2 nid2 db'' iv2 h2
    obtain ⟨_, _, happt2⟩ := interviewCreate_ok h2
    rw [happt2]
    exact updateOrCreate_filter _ _ _ _ huniq'

/-- Witness for C4: scheduling an interview for application 5 in the fixture
store. -/
theorem c4_witness :
    ((interviewCreate fxDbApp fxProviderReq 5 "Tech round" "2025-01-01" "10:00"
          100).1.appointments.filter (fun x => x.applicationId == 5)
        = [⟨5, "Tech round", "10:00", "2025-01-01", "Interview: Tech round"⟩])
    ∧ apptKeyUnique
        (interviewCreate fxDbApp fxProviderReq 5 "Tech round" "2025-01-01" "10:00"
          100).1.appointments := by
  have h := c4_interview_appointment_upsert fxDbApp fxProviderReq 5 "Tech round"
    "2025-01-01" "10:00" 100
    (interviewCreate fxDbApp fxProviderReq 5 "Tech round" "2025-01-01" "10:00" 100).1
    ⟨100, 5, "Tech round", "2025-01-01", "10:00"⟩ rfl List.Pairwise.nil
  exact ⟨h.1, h.2.1⟩

/-- The uniqueness invariant of the application table: at most one row per
(job, seeker) pair. -/
def pairUniqueApplications (apps : List ApplicationRow) : Prop :=
  apps.Pairwise (fun a b => ¬(a.jobId = b.jobId ∧ a.seekerId = b.seekerId))

/-- With an active job and no duplicate, the create tail appends exactly the
new pending-or-requested application row. -/
lemma applicationFinish_ok {db1 : Db} {seeker : JobSeekerRow} {job : Job}
    (statusVal : String) (newAppId : Nat)
    (hactive : job.is_active = true)
    (hdup : (db1.applications.any
        (fun a => a.jobId == job.id && a.seekerId == seeker.id)) = false) :
    applicationFinish db1 seeker job statusVal newAppId
      = ({ db1 with applications := db1.applications
              ++ [⟨newAppId, job.id, seeker.id, statusVal, none⟩] },
         Except.ok ⟨newAppId, job.id, seeker.id, statusVal, none⟩) := by
  unfold applicationFinish
  rw [hactive, hdup]
  simp

/-- With an active job and an existing application for the pair, the create
tail denies and returns the store unchanged. -/
lemma applicationFinish_dup {db1 : Db} {seeker : JobSeekerRow} {job : Job}
    (statusVal : String) (newAppId : Nat)
    (hactive : job.is_active = true)
    (hdup : (db1.applications.any
        (fun a => a.jobId == job.id && a.seekerId == seeker.id)) = true) :
    applicationFinish db1 seeker job statusVal newAppId
      = (db1,
         Except.error (CreateErr.permissionDenied "You have already applied to this job.")) := by
  unfold applicationFinish
  rw [hactive, hdup]
  simp

/-- The create tail preserves the one-per-pair invariant. -/
lemma applicationFinish_pairUnique {db1 : Db} {seeker : JobSeekerRow} {job : Job}
    (statusVal : String) (newAppId : Nat)
    (h : pairUniqueApplications db1.applications) :
    pairUniqueApplications
      (applicationFinish db1 seeker job statusVal newAppId).1.applications := by
  unfold applicationFinish
  by_cases hactive : job.is_active = true
  case neg =>
    have hf : job.is_active = false := by simpa using hactive
    rw [hf]
    exact h
  case pos =>
    rw [hactive]
    by_cases hdup : (db1.applications.any
        (fun a => a.jobId == job.id && a.seekerId == seeker.id)) = true
    · rw [hdup]
      simpa using h
    · have hdupf : (db1.applications.any
          (fun a => a.jobId == job.id && a.seekerId == seeker.id)) = false := by
        simpa using hdup
      rw [hdupf]
      simp only [Bool.not_true, Bool.false_eq_true, if_false]
      rw [pairUniqueApplications, List.pairwise_append]
      refine ⟨h, List.pairwise_singleton _ _, ?_⟩
      intro a hain b hbin
      have hb : b = (⟨newAppId, job.id, seeker.id, statusVal, none⟩ : ApplicationRow) := by
        simpa using hbin
      subst hb
      have hna := List.any_eq_false.mp hdupf a hain
      intro hc
      apply hna
      simp [hc.1, hc.2]

/-- `perform_create` preserves the one-per-pair invariant whatever the
request. -/
lemma applicationPerformCreate_pairUnique {db : Db} {req : Requester} {job : Job}
    (statusVal : String) (newAppId newSeekerId : Nat)
    (h : pairUniqueApplications db.applications) :
    pairUniqueApplications
      (applicationPerformCreate db req job statusVal newAppId newSeekerId).1.applications := by
  unfold applicationPerformCreate
  by_cases hc : (!(req.isAuthenticated && req.user.role == "seeker")) = true
  · rw [if_pos hc]
    exact h
  · rw [if_neg hc]
    cases hf : db.seekers.find? (fun s => s.userId == req.user.id) with
    | some s => exact applicationFinish_pairUnique _ _ h
    | none => exact applicationFinish_pairUnique _ _ h

/-- Claim C3 counterexample: the serializer exposes `status` as a writable
choice field, so a first application that supplies `status = "ACCEPTED"` is
created with that status, not with Pending. -/
theorem c3_counterexample :
    (applicationCreate fxDb fxSeekerReq 1 (some "ACCEPTED") 10 20).2
      = Except.ok ⟨10, 1, 1, "ACCEPTED", none⟩
    ∧ (⟨10, 1, 1, "ACCEPTED", none⟩ : ApplicationRow).status ≠ "PENDING" :=
  ⟨rfl, by decide⟩

/-- Claim C3 as amended: a first application by an authenticated seeker
against an existing active job succeeds, with status Pending when the request
supplies none (the model default; a supplied valid status is stored instead);
a second application for the same pair is denied with "already applied" and
adds no row; and every create request preserves the at-most-one-application-
per-(job, seeker) invariant. -/
theorem c3_application_uniqueness :
    (∀ (db : Db) (req : Requester) (jobIdParam newAppId newSeekerId : Nat) (job : Job),
        db.jobs.find? (fun j => j.id == jobIdParam) = some job →
        req.isAuthenticated = true →
        req.user.role = "seeker" →
        job.is_active = true →
        (db.applications.any (fun a =>
            a.jobId == job.id && a.seekerId == seekerIdFor db req newSeekerId)) = false →
        (applicationCreate db req jobIdParam none newAppId newSeekerId).2
            = Except.ok
                ⟨newAppId, job.id, seekerIdFor db req newSeekerId, "PENDING", none⟩
        ∧ (applicationCreate db req jobIdParam none newAppId newSeekerId).1.applications
            = db.applications
              ++ [⟨newAppId, job.id, seekerIdFor db req newSeekerId, "PENDING", none⟩]) ∧
    (∀ (db : Db) (req : Requester) (jobIdParam : Nat) (statusParam : Option String)
       (newAppId newSeekerId : Nat) (job : Job),
        (∀ s, statusParam = some s → validStatusChoices.contains s = true) →
        db.jobs.find? (fun j => j.id == jobIdParam) = some job →
        req.isAuthenticated = true →
        req.user.role = "seeker" →
        job.is_active = true →
        (db.applications.any (fun a =>
            a.jobId == job.id && a.seekerId == seekerIdFor db req newSeekerId)) = true →
        (applicationCreate db req jobIdParam statusParam newAppId newSeekerId).2
            = Except.error
                (CreateErr.permissionDenied "You have already applied to this job.")
        ∧ (applicationCreate db req jobIdParam statusParam
              newAppId newSeekerId).1.applications
            = db.applications) ∧
    (∀ (db : Db) (req : Requester) (jobIdParam : Nat) (statusParam : Option String)
       (newAppId newSeekerId : Nat),
        pairUniqueApplications db.applications →
        pairUniqueApplications
          (applicationCreate db req jobIdParam statusParam
              newAppId newSeekerId).1.applications) := by
  refine ⟨?_, ?_, ?_⟩
  · intro db req jobIdParam newAppId newSeekerId job hjob hauth hrole hactive hdup
    unfold applicationCreate
    rw [hjob]
    unfold applicationPerformCreate
    have hcond : (!(req.isAuthenticated && req.user.role == "seeker")) = false := by
      simp [hauth, hrole]
    rw [hcond]
    simp only [Bool.false_eq_true, if_false]
    unfold seekerIdFor at hdup ⊢
    cases hf : db.seekers.find? (fun s => s.userId == req.user.id) with
    | some s =>
      rw [hf] at hdup
      have hdup' : (db.applications.any fun a =>
          a.jobId == job.id && a.seekerId == s.id) = false := hdup
      show (applicationFinish db s job _ newAppId).2 = _
        ∧ (applicationFinish db s job _ newAppId).1.applications = _
      rw [applicationFinish_ok _ _ hactive hdup']
      exact ⟨rfl, rfl⟩
    | none =>
      rw [hf] at hdup
      have hdup' : (db.applications.any fun a =>
          a.jobId == job.id && a.seekerId == newSeekerId) = false := hdup
      show (applicationFinish
            { db with seekers := db.seekers ++ [⟨newSeekerId, req.user.id, "", ""⟩] }
            ⟨newSeekerId, req.user.id, "", ""⟩ job _ newAppId).2 = _
        ∧ (applicationFinish
            { db with seekers := db.seekers ++ [⟨newSeekerId, req.user.id, "", ""⟩] }
            ⟨newSeekerId, req.user.id, "", ""⟩ job _ newAppId).1.applications = _
      rw [applicationFinish_ok _ _ hactive hdup']
      exact ⟨rfl, rfl⟩
  · intro db req jobIdParam statusParam newAppId newSeekerId job hvalid hjob hauth hrole
      hactive hdup
    unfold applicationCreate
    rw [hjob]
    have hmain : ∀ statusVal : String,
        (applicationPerformCreate db req job statusVal newAppId newSeekerId).2
          = Except.error
              (CreateErr.permissionDenied "You have already applied to this job.")
        ∧ (applicationPerformCreate db req job statusVal
              newAppId newSeekerId).1.applications
            = db.applications := by
      intro statusVal
      unfold applicationPerformCreate
      have hcond : (!(req.isAuthenticated && req.user.role == "seeker")) = false := by
        simp [hauth, hrole]
      rw [hcond]
      simp only [Bool.false_eq_true, if_false]
      unfold seekerIdFor at hdup
      cases hf : db.seekers.find? (fun s => s.userId == req.user.id) with
      | some s =>
        rw [hf] at hdup
        have hdup' : (db.applications.any fun a =>
            a.jobId == job.id && a.seekerId == s.id) = true := hdup
        show (applicationFinish db s job _ newAppId).2 = _
          ∧ (applicationFinish db s job _ newAppId).1.applications = _
        rw [applicationFinish_dup _ _ hactive hdup']
        exact ⟨rfl, rfl⟩
      | none =>
        rw [hf] at hdup
        have hdup' : (db.applications.any fun a =>
            a.jobId == job.id && a.seekerId == newSeekerId) = true := hdup
        show (applicationFinish
              { db with seekers := db.seekers ++ [⟨newSeekerId, req.user.id, "", ""⟩] }
              ⟨newSeekerId, req.user.id, "", ""⟩ job _ newAppId).2 = _
          ∧ (applicationFinish
              { db with seekers := db.seekers ++ [⟨newSeekerId, req.user.id, "", ""⟩] }
              ⟨newSeekerId, req.user.id, "", ""⟩ job _ newAppId).1.applications = _
        rw [applicationFinish_dup _ _ hactive hdup']
        exact ⟨rfl, rfl⟩
    cases statusParam with
    | none => exact hmain "PENDING"
    | some s =>
      have hs := hvalid s rfl
      show (if validStatusChoices.contains s = true then
              applicationPerformCreate db req job s newAppId newSeekerId
            else (db, Except.error (CreateErr.validationErr "not a valid choice."))).2 = _
        ∧ (if validStatusChoices.contains s = true then
              applicationPerformCreate db req job s newAppId newSeekerId
            else (db, Except.error
                (CreateErr.validationErr "not a valid choice."))).1.applications = _
      rw [hs]
      rw [if_pos rfl]
      exact hmain s
  · intro db req jobIdParam statusParam newAppId newSeekerId h
    unfold applicationCreate
    cases hj : db.jobs.find? (fun j => j.id == jobIdParam) with
    | none => exact h
    | some job =>
      cases statusParam with
      | none => exact applicationPerformCreate_pairUnique _ _ _ h
      | some s =>
        by_cases hs : validStatusChoices.contains s = true
        · show pairUniqueApplications
            (if validStatusChoices.contains s = true then
                applicationPerformCreate db req job s newAppId newSeekerId
              else (db, Except.error
                  (CreateErr.validationErr "not a valid choice."))).1.applications
          rw [hs]
          rw [if_pos rfl]
          exact applicationPerformCreate_pairUnique _ _ _ h
        · have hsf : validStatusChoices.contains s = false := by simpa using hs
          show pairUniqueApplications
            (if validStatusChoices.contains s = true then
                applicationPerformCreate db req job s newAppId newSeekerId
              else (db, Except.error
                  (CreateErr.validationErr "not a valid choice."))).1.applications
          rw [hsf]
          rw [if_neg (by simp)]
          exact h

/-- Witness for C3 (amended): first application succeeds Pending, second is
denied, and the invariant is preserved, in the fixture store. -/
theorem c3_witness :
    ((applicationCreate fxDb fxSeekerReq 1 none 10 20).2
        = Except.ok ⟨10, 1, 1, "PENDING", none⟩)
    ∧ ((applicationCreate (applicationCreate fxDb fxSeekerReq 1 none 10 20).1
          fxSeekerReq 1 none 11 21).2
        = Except.error
            (CreateErr.permissionDenied "You have already applied to this job."))
    ∧ pairUniqueApplications
        (applicationCreate fxDb fxSeekerReq 1 none 10 20).1.applications := by
  refine ⟨?_, ?_, ?_⟩
  · exact (c3_application_uniqueness.1 fxDb fxSeekerReq 1 10 20 (fxJob 1)
      rfl rfl rfl rfl rfl).1
  · exact (c3_application_uniqueness.2.1 (applicationCreate fxDb fxSeekerReq 1 none 10 20).1
      fxSeekerReq 1 none 11 21 (fxJob 1) (fun s hs => Option.noConfusion hs)
      rfl rfl rfl rfl rfl).1
  · exact c3_application_uniqueness.2.2 fxDb fxSeekerReq 1 none 10 20 List.Pairwise.nil

end JobPortal
